import Mathlib

/-!
Shallow embedding of `mlflow/utils/autologging_utils/safety.py`: the
autologging patch-safety engine.  Python exceptions are modelled as an
explicit `Exc` type distinguishing ordinary `Exception` instances from
`KeyboardInterrupt` (which `except Exception` clauses do not catch);
fallible code returns a `PyResult`.  A patch implementation is modelled
as a finite interaction tree (`PatchImpl`) describing how it calls the
guarded `call_original` closure and what it finally returns or raises.
External collaborators that the claims do not depend on (the gorilla
patch mechanism itself, the event logger whose notifications are
swallowed by `try_log_autologging_event`, the diagnostics/warning
rerouting context managers, and the test-mode argument validation and
run-leak assertions inside `call_original`, which are assumed to pass)
are not part of the state.
-/

namespace MlflowSafety

/-- A Python exception value: either an ordinary `Exception` (caught by
`except Exception`) or a `KeyboardInterrupt` (not an `Exception`
subclass). The `tag` identifies the particular exception object. -/
inductive Exc where
  | exc (tag : Nat)
  | kb (tag : Nat)
deriving DecidableEq, Repr

/-- Whether the exception is an `Exception` instance, i.e. caught by
`except Exception` clauses. `KeyboardInterrupt` is not. -/
def Exc.isException : Exc → Bool
  | .exc _ => true
  | .kb _ => false

/-- Outcome of running a piece of Python code: a normal return value or
a raised exception. -/
inductive PyResult (γ : Type) where
  | ok (v : γ)
  | raised (e : Exc)
deriving DecidableEq, Repr

/-- The behavior of a patch implementation body, as an interaction tree:
it may return a value, raise an exception, or invoke the guarded
`call_original` closure with an argument and continue depending on that
call's outcome (the continuation receiving `raised e` models the patch
implementation catching or propagating the exception itself). -/
inductive PatchImpl (α γ β : Type) where
  | ret (v : β)
  | raise (e : Exc)
  | callOrig (ogArg : α) (k : PyResult γ → PatchImpl α γ β)

/-- State of an `AutologgingSession` (`safety.py` line 568):
running / succeeded / failed. -/
inductive SState where
  | running
  | succeeded
  | failed
deriving DecidableEq, Repr

/-- `AutologgingSession` (`safety.py` lines 569-573): integration name,
unique id, and mutable state initialized to running. -/
structure Session where
  integration : String
  id : Nat
  state : SState
deriving DecidableEq, Repr

/-- Global orchestrator state threaded through a guarded call:
the `_AutologgingSessionManager._session` class attribute, a counter
supplying fresh session ids (standing in for `uuid.uuid4().hex`), a
ghost log of every `session.state = ...` assignment (most recent first),
a ghost count of `log_patch_function_start` notifications (i.e. of patch
implementation invocations), and a user-chosen payload `user` available
to instantiations of the original function (e.g. an invocation
counter). -/
structure OrchState (ω : Type) where
  session : Option Session
  nextId : Nat
  stateLog : List (Nat × SState)
  patchStarts : Nat
  user : ω
deriving DecidableEq, Repr

/-- The nonlocal call-local record of `safe_patch_function`
(`safety.py` lines 391-401): whether `call_original` has run the
original, the original's captured result (set only on successful
return), whether an `Exception` escaped the original, plus a ghost list
of every exception the original raised (in order). -/
structure CallState (γ : Type) where
  originalHasBeenCalled : Bool
  originalResult : Option γ
  failedDuringOriginal : Bool
  origExcs : List Exc
deriving DecidableEq, Repr

/-- Initial call-local record at the start of a guarded call. -/
def CallState.init {γ : Type} : CallState γ :=
  ⟨false, none, false, []⟩

/-- Runs a patch implementation body against the guarded `call_original`
closure (`safety.py` lines 414-473).  Each `callOrig` node: sets
`original_has_been_called` before invoking the original; on success
records `original_result`; on an exception, sets
`failed_during_original` only when the exception is an `Exception`
(the closure's `except Exception` clause does not catch
`KeyboardInterrupt`), records the exception in the ghost log, and hands
the raised outcome to the patch implementation's continuation (which
re-raises or catches it). -/
def runPatch {α γ β ω : Type}
    (original : α → OrchState ω → PyResult γ × OrchState ω) :
    PatchImpl α γ β → OrchState ω → CallState γ →
      PyResult β × OrchState ω × CallState γ
  | .ret v, s, cs => (.ok v, s, cs)
  | .raise e, s, cs => (.raised e, s, cs)
  | .callOrig a k, s, cs =>
    let cs1 : CallState γ := { cs with originalHasBeenCalled := true }
    match original a s with
    | (.ok v, s') =>
      runPatch original (k (.ok v)) s' { cs1 with originalResult := some v }
    | (.raised e, s') =>
      runPatch original (k (.raised e)) s'
        { cs1 with
          failedDuringOriginal := cs1.failedDuringOriginal || e.isException
          origExcs := cs1.origExcs ++ [e] }

/-- Per-integration configuration and ambient tracking facts read by the
short-circuit check of `safe_patch_function` (`safety.py` lines
366-380): the integration's disabled flag, its `exclusive` flag, the
global kill switch, and whether `mlflow.active_run()` reports an active
run. -/
structure SkipCtx where
  disabled : Bool
  exclusive : Bool
  globallyDisabled : Bool
  activeRunPresent : Bool
deriving DecidableEq, Repr

/-- The short-circuit condition of `safe_patch_function` (`safety.py`
lines 375-380): active session already failed, or integration disabled,
or a user-created fluent run is active (an active run with no ambient
autologging session) while the integration is exclusive, or autologging
is globally disabled. -/
def shouldSkip {ω : Type} (ctx : SkipCtx) (s : OrchState ω) : Bool :=
  (match s.session with
   | some t => decide (t.state = SState.failed)
   | none => false)
  || ctx.disabled
  || (ctx.activeRunPresent && s.session.isNone && ctx.exclusive)
  || ctx.globallyDisabled

/-- `_AutologgingSessionManager.start_session` entry (`safety.py` lines
579-587): when no ambient session exists, install a fresh one with
state running; otherwise reuse the ambient session. Returns whether
this call created (and hence owns) the session. -/
def openSession {ω : Type} (integration : String) (s : OrchState ω) :
    Bool × OrchState ω :=
  match s.session with
  | some _ => (false, s)
  | none =>
    (true,
      { s with
        session := some ⟨integration, s.nextId, SState.running⟩
        nextId := s.nextId + 1 })

/-- `_AutologgingSessionManager.start_session` exit (`safety.py` lines
588-593): only the call that created the session clears it. -/
def closeSession {ω : Type} (owner : Bool) (s : OrchState ω) : OrchState ω :=
  if owner then { s with session := none } else s

/-- A `session.state = st` assignment (`safety.py` lines 494 and 505):
mutates the ambient session's state and records the assignment in the
ghost log. (In the code these assignments only execute inside the
session scope, where a session is present.) -/
def setSessionState {ω : Type} (st : SState) (s : OrchState ω) : OrchState ω :=
  match s.session with
  | none => s
  | some t =>
    { s with
      session := some { t with state := st }
      stateLog := (t.id, st) :: s.stateLog }

/-- Maps the outcome of a direct call of the original function to the
guarded call's return type (a Python function that returns `v` simply
returns `v`; the `Option` appears because the guarded call may also
return the never-assigned `original_result`, i.e. `None`). -/
def liftRes {γ : Type} : PyResult γ → PyResult (Option γ)
  | .ok v => .ok (some v)
  | .raised e => .raised e

/-- The orchestrator state as it stands when the patch implementation is
invoked (`safety.py` lines 411-492): the session scope has been entered
and `log_patch_function_start` has fired. -/
def enterState {ω : Type} (integration : String) (s : OrchState ω) :
    OrchState ω :=
  let s1 := (openSession integration s).2
  { s1 with patchStarts := s1.patchStarts + 1 }

/-- The run of the patch implementation body performed by a guarded call
(`safety.py` lines 489-492), from the entered state with a fresh
call-local record. -/
def implRun {α γ β ω : Type}
    (original : α → OrchState ω → PyResult γ × OrchState ω)
    (impl : α → PatchImpl α γ β) (integration : String) (arg : α)
    (s : OrchState ω) : PyResult β × OrchState ω × CallState γ :=
  runPatch original (impl arg) (enterState integration s) CallState.init

/-- The return step of `safe_patch_function` (`safety.py` lines
540-543), executed inside the session scope: if the original has been
called, return its captured result; otherwise call the original
directly with the caller's arguments. The session scope is then exited
(clearing the session when owned). -/
def finishReturn {α γ ω : Type}
    (original : α → OrchState ω → PyResult γ × OrchState ω) (arg : α)
    (s : OrchState ω) (cs : CallState γ) (owner : Bool) :
    PyResult (Option γ) × OrchState ω :=
  if cs.originalHasBeenCalled then
    (.ok cs.originalResult, closeSession owner s)
  else
    match original arg s with
    | (r, s') => (liftRes r, closeSession owner s')

/-- `safe_patch_function` (`safety.py` lines 313-543), the guarded call:
short-circuit directly to the original when `shouldSkip` holds;
otherwise enter the session scope, run the patch implementation against
the guarded closure, and classify the outcome. On success the session
state is set to succeeded and the captured original result (or a direct
original call) is returned. On an `Exception` the session state is set
to failed; the exception is re-raised when it escaped the original or
in test mode, and swallowed otherwise (falling through to the return
step). A `KeyboardInterrupt` is not caught by the orchestrator's
`except Exception` handler and propagates with no state assignment;
the session scope still exits. The patch implementation's return value
is discarded in every case. -/
def safe_patch_function {α γ β ω : Type} (testing : Bool) (ctx : SkipCtx)
    (original : α → OrchState ω → PyResult γ × OrchState ω)
    (impl : α → PatchImpl α γ β) (integration : String) (arg : α)
    (s : OrchState ω) : PyResult (Option γ) × OrchState ω :=
  if shouldSkip ctx s then
    match original arg s with
    | (r, s') => (liftRes r, s')
  else
    let owner := s.session.isNone
    match implRun original impl integration arg s with
    | (.ok _, s2, cs) =>
      finishReturn original arg (setSessionState SState.succeeded s2) cs owner
    | (.raised e, s2, cs) =>
      if e.isException then
        let s3 := setSessionState SState.failed s2
        if cs.failedDuringOriginal || testing then
          (.raised e, closeSession owner s3)
        else
          finishReturn original arg s3 cs owner
      else
        (.raised e, closeSession owner s2)

/-- `PatchFunction.__call__` (`safety.py` lines 158-167) over abstract
stateful bodies: run `_patch_implementation`; if it raises any
`Exception` or `KeyboardInterrupt` (all of `Exc`), invoke
`_on_exception` on the exception, and — whatever `_on_exception`
returns or raises (`finally: raise e`) — re-raise the original
exception. `_on_exception`'s own result is discarded; only its state
effect survives. -/
def PatchFunction_call {σ β : Type} (impl : σ → PyResult β × σ)
    (onException : Exc → σ → PyResult PUnit × σ) (s : σ) :
    PyResult β × σ :=
  match impl s with
  | (.ok v, s') => (.ok v, s')
  | (.raised e, s') =>
    match onException e s' with
    | (_, s'') => (.raised e, s'')

/-- Terminal status of an MLflow run
(`mlflow/entities/run_status.py`, as used at `safety.py` lines 223,
229, 248, 252). -/
inductive RunStatus where
  | FINISHED
  | FAILED
deriving DecidableEq, Repr

/-- Ghost record of a tracking-client call made on the run store. -/
inductive RunEvent where
  | created (id : Nat)
  | ended (id : Nat) (status : RunStatus)
deriving DecidableEq, Repr

/-- The fluent tracking-run state visible to `with_managed_run`: the
currently active run (if any), a fresh-id counter, and a ghost log of
run creations and terminations (most recent first). -/
structure RunState where
  activeRun : Option Nat
  nextRunId : Nat
  events : List RunEvent
deriving DecidableEq, Repr

/-- `mlflow.start_run` as invoked by `create_managed_run` (`safety.py`
lines 196-205): creates and activates a fresh run. (Only called when no
run is active; the tracking client is modelled as never failing, so the
`try_mlflow_log` guard around it is the identity.) -/
def start_run (s : RunState) : Nat × RunState :=
  (s.nextRunId,
    { activeRun := some s.nextRunId
      nextRunId := s.nextRunId + 1
      events := RunEvent.created s.nextRunId :: s.events })

/-- `mlflow.end_run(status)` (`safety.py` lines 223, 229, 248, 252):
terminates the currently active run with the given status. -/
def end_run (st : RunStatus) (s : RunState) : RunState :=
  match s.activeRun with
  | some r =>
    { s with activeRun := none, events := RunEvent.ended r st :: s.events }
  | none => s

/-- `patch_with_managed_run` (`safety.py` lines 236-255), the
function-object branch of `with_managed_run`: if no run is active on
entry, create a managed run; run the wrapped patch implementation; if a
managed run was created, end it with FINISHED on normal return, or with
FAILED on any `Exception` or `KeyboardInterrupt` (the handler catches
`(Exception, KeyboardInterrupt)`) before re-raising. -/
def patch_with_managed_run {β : Type} (pf : RunState → PyResult β × RunState)
    (s : RunState) : PyResult β × RunState :=
  let createStep : Option Nat × RunState :=
    match s.activeRun with
    | none =>
      match start_run s with
      | (rid, s') => (some rid, s')
    | some _ => (none, s)
  match createStep with
  | (managedRun, s1) =>
    match pf s1 with
    | (.ok v, s2) =>
      (.ok v, if managedRun.isSome then end_run RunStatus.FINISHED s2 else s2)
    | (.raised e, s2) =>
      (.raised e, if managedRun.isSome then end_run RunStatus.FAILED s2 else s2)

/-- The terminal status `patch_with_managed_run` assigns to a managed
run for a given outcome of the wrapped patch implementation. -/
def terminalStatus {β : Type} : PyResult β → RunStatus
  | .ok _ => RunStatus.FINISHED
  | .raised _ => RunStatus.FAILED

/-- The process-wide patch registry `_AUTOLOGGING_PATCHES` (`safety.py`
line 26), keyed by integration name (keys unique, as in a Python dict),
together with a ghost log of reverted patches (patches identified by
numeric tokens). -/
structure PatchStore where
  patches : List (String × List Nat)
  reverted : List Nat
deriving DecidableEq, Repr

/-- `_AUTOLOGGING_PATCHES.get(integration, [])`: the patches recorded
for an integration, or the empty list. -/
def lookupPatches (integration : String) :
    List (String × List Nat) → List Nat
  | [] => []
  | (k, v) :: rest =>
    if k = integration then v else lookupPatches integration rest

/-- `_AUTOLOGGING_PATCHES.pop(integration, None)`: removes the
integration's entry from the registry. -/
def removeIntegration (integration : String)
    (ps : List (String × List Nat)) : List (String × List Nat) :=
  ps.filter (fun p => decide (p.1 ≠ integration))

/-- `revert_patches` (`safety.py` lines 549-562): calls
`gorilla.revert` on every patch recorded under exactly the given
integration name, then removes that entry from the registry. -/
def revert_patches (integration : String) (st : PatchStore) : PatchStore :=
  { patches := removeIntegration integration st.patches
    reverted := lookupPatches integration st.patches ++ st.reverted }

/-- `_store_patch` (`safety.py` lines 644-656): records a patch under
its integration name, creating the entry if absent. -/
def _store_patch (integration : String) (patch : Nat) (st : PatchStore) :
    PatchStore :=
  if (st.patches.filter (fun p => decide (p.1 = integration))).isEmpty then
    { st with patches := (integration, [patch]) :: st.patches }
  else
    { st with
      patches := st.patches.map
        (fun p => if p.1 = integration then (p.1, patch :: p.2) else p) }

/-- A Python argument value as inspected by `_validate_args`
(`safety.py` lines 679-777): `None`, an atom (numbers etc.), a callable
carrying (or not) the `exception_safe` function attribute, an instance
of a class whose metaclass is (or is not) one of the exception-safe
metaclasses, a list, a tuple, or a dict (keyword names abstracted to
numeric keys). -/
inductive PyVal where
  | none
  | int (n : Int)
  | func (marked : Bool) (fid : Nat)
  | obj (cls : Nat) (safe : Bool) (oid : Nat)
  | list (xs : List PyVal)
  | tuple (xs : List PyVal)
  | dict (entries : List (Nat × PyVal))

/-- Whether the value is Python `None`. -/
def PyVal.isNone : PyVal → Bool
  | .none => true
  | _ => false

mutual

/-- Python `==` on argument values (identity-or-equality collapses to
structural equality in this model). -/
def pyEq : PyVal → PyVal → Bool
  | .none, .none => true
  | .int a, .int b => a == b
  | .func m f, .func m' f' => m == m' && f == f'
  | .obj c s o, .obj c' s' o' => c == c' && s == s' && o == o'
  | .list xs, .list ys => pyEqList xs ys
  | .tuple xs, .tuple ys => pyEqList xs ys
  | .dict xs, .dict ys => pyEqEntries xs ys
  | _, _ => false

/-- Elementwise `pyEq` on lists. -/
def pyEqList : List PyVal → List PyVal → Bool
  | [], [] => true
  | x :: xs, y :: ys => pyEq x y && pyEqList xs ys
  | _, _ => false

/-- Elementwise `pyEq` on dict entries. -/
def pyEqEntries : List (Nat × PyVal) → List (Nat × PyVal) → Bool
  | [], [] => true
  | (k, v) :: xs, (k', v') :: ys => k == k' && pyEq v v' && pyEqEntries xs ys
  | _, _ => false

end

/-- Python `type(a) == type(b)` on argument values: all functions share
one type, instances compare by their class, every other shape is its
own type. -/
def sameType : PyVal → PyVal → Bool
  | .none, .none => true
  | .int _, .int _ => true
  | .func _ _, .func _ _ => true
  | .obj c _ _, .obj c' _ _ => c == c'
  | .list _, .list _ => true
  | .tuple _, .tuple _ => true
  | .dict _, .dict _ => true
  | _, _ => false

/-- `entries.get(k, None)` on a dict: the value at key `k`, or Python
`None` when absent (`safety.py` line 766 — note that this makes a user
value of `None` indistinguishable from an absent key, as in the code). -/
def lookupEntry (k : Nat) : List (Nat × PyVal) → PyVal
  | [] => .none
  | (k', v) :: rest => if k' = k then v else lookupEntry k rest

/-- Whether the dict has an entry for key `k`. -/
def containsKey (k : Nat) : List (Nat × PyVal) → Bool
  | [] => false
  | (k', _) :: rest => k' == k || containsKey k rest

/-- `set(user.keys()).issubset(set(auto.keys()))` (`safety.py` line
759). -/
def keysSubset (ues aes : List (Nat × PyVal)) : Bool :=
  ues.all (fun p => containsKey p.1 aes)

/-- The `else` branch of `_validate_new_input` (`safety.py` lines
712-721): only an instance of a class whose metaclass is
`ExceptionSafeClass` / `ExceptionSafeAbstractClass` passes; `None`,
numbers, tuples and dicts do not. -/
def isSafeInstance : PyVal → Bool
  | .obj _ safe _ => safe
  | _ => false

mutual

/-- `_validate_new_input` (`safety.py` lines 693-721): a new argument
introduced by autologging is valid iff it is a list of valid new
inputs, a callable carrying the `exception_safe` attribute, or an
instance of a class with an exception-safe metaclass. -/
def _validate_new_input : PyVal → Bool
  | .list xs => newInputList xs
  | .func marked _ => marked
  | v => isSafeInstance v

/-- Each element of a new list input must itself be a valid new input. -/
def newInputList : List PyVal → Bool
  | [] => true
  | x :: xs => _validate_new_input x && newInputList xs

end

mutual

/-- `_validate` (`safety.py` lines 723-774): a `None` user input paired
with a non-`None` autologging input is a new input; otherwise the types
must match, lists/tuples recurse pairwise after checking the
autologging side is at least as long (the user side of `zip_longest`
padded with `None`), dicts require the user's keys to be a subset of
the autologging keys and recurse per autologging key against
`user.get(key, None)`, and all other values must be equal. -/
def _validate (auto user : PyVal) : Bool :=
  if user.isNone && !auto.isNone then _validate_new_input auto
  else
    sameType auto user &&
    match auto, user with
    | .list as, .list us =>
      decide (us.length ≤ as.length) && validateSeq as us
    | .tuple as, .tuple us =>
      decide (us.length ≤ as.length) && validateSeq as us
    | .dict aes, .dict ues =>
      keysSubset ues aes && validateEntries aes ues
    | a, u => pyEq a u

/-- The `zip_longest` loop of `_validate` (`safety.py` lines 756-757)
with the user side padded by `None`. (When the user side is longer the
surrounding length assertion has already failed, so that case never
affects the result and is resolved to `true` here.) -/
def validateSeq : List PyVal → List PyVal → Bool
  | [], _ => true
  | a :: as, [] => _validate a .none && validateSeq as []
  | a :: as, u :: us => _validate a u && validateSeq as us

/-- The per-key loop of `_validate`'s dict branch (`safety.py` lines
765-766): each autologging entry's value is validated against the
user's value at that key (or `None` when absent). Iterating the
entries and looking up in the user dict coincides with the code on
Python dicts, whose keys are unique. -/
def validateEntries : List (Nat × PyVal) → List (Nat × PyVal) → Bool
  | [], _ => true
  | (k, v) :: rest, ues =>
    _validate v (lookupEntry k ues) && validateEntries rest ues

end

/-- `_validate_args` (`safety.py` lines 679-777): validates the
autologging-side positional arguments (a Python tuple) against the
user's, and the keyword arguments (a dict) against the user's. -/
def _validate_args (userArgs : List PyVal) (userKwargs : List (Nat × PyVal))
    (autoArgs : List PyVal) (autoKwargs : List (Nat × PyVal)) : Bool :=
  _validate (.tuple autoArgs) (.tuple userArgs) &&
    _validate (.dict autoKwargs) (.dict userKwargs)

/-- Key uniqueness of a dict's entry list. -/
def nodupKeys : List (Nat × PyVal) → Bool
  | [] => true
  | (k, _) :: rest => !containsKey k rest && nodupKeys rest

mutual

/-- Well-formedness of a value as a Python object: every dict that
occurs in it has unique keys (Python dicts cannot repeat a key). -/
def wfVal : PyVal → Bool
  | .list xs => wfList xs
  | .tuple xs => wfList xs
  | .dict es => nodupKeys es && wfEntries es
  | _ => true

/-- Well-formedness of each element of a list. -/
def wfList : List PyVal → Bool
  | [] => true
  | x :: xs => wfVal x && wfList xs

/-- Well-formedness of each value of a dict. -/
def wfEntries : List (Nat × PyVal) → Bool
  | [] => true
  | (_, v) :: rest => wfVal v && wfEntries rest

end

/-- A patch implementation body is transparent to exceptions of the
guarded `call_original` closure: whenever a call to the closure raises,
the body re-raises that same exception immediately (it installs no
handler around calls to the original). -/
def Propagates {α γ β : Type} : PatchImpl α γ β → Prop
  | .ret _ => True
  | .raise _ => True
  | .callOrig _ k =>
    (∀ e, k (.raised e) = .raise e) ∧ ∀ v, Propagates (k (.ok v))

/-- The identity of a session: its integration name and id (everything
except its mutable state). -/
def sessKey (t : Session) : String × Nat := (t.integration, t.id)

/-- State-evolution discipline of the session bookkeeping: the ambient
session keeps its identity (in particular a call never clears a session
it did not create, and creates one only if it also clears it), and the
ghost log of `session.state` assignments only grows, every new entry
recording a terminal (non-running) state. -/
def Evolves {ω : Type} (s s' : OrchState ω) : Prop :=
  s'.session.map sessKey = s.session.map sessKey ∧
  ∃ xs, s'.stateLog = xs ++ s.stateLog ∧
    ∀ p ∈ xs, (p : Nat × SState).2 ≠ SState.running

/-- A (possibly instrumented) callable respects the session discipline
on every input. -/
def Disciplined {α γ ω : Type}
    (g : α → OrchState ω → PyResult γ × OrchState ω) : Prop :=
  ∀ a s, Evolves s (g a s).2

/-- A pure original function, lifted to the stateful interface: calling
it directly with the caller's arguments yields `f arg` and touches no
orchestrator state. -/
def liftO {α γ ω : Type} (f : α → PyResult γ) :
    α → OrchState ω → PyResult γ × OrchState ω :=
  fun a s => (f a, s)

/-- A configuration with nothing disabled, nothing exclusive, and no
active tracking run. -/
def ctxNone : SkipCtx := ⟨false, false, false, false⟩

/-- Orchestrator state before any guarded call: no ambient session,
empty logs. -/
def initState {ω : Type} (u : ω) : OrchState ω :=
  ⟨Option.none, 0, [], 0, u⟩

/-- Scenario A's original function `lambda x: x*2`, counting its own
invocations in the user payload. -/
def scenarioAOriginal : Nat → OrchState Nat → PyResult Nat × OrchState Nat :=
  fun x s => (.ok (x * 2), { s with user := s.user + 1 })

/-- Scenario A's patch implementation
`def f(original, x): return original(x) + 1`. -/
def scenarioAImpl : Nat → PatchImpl Nat Nat Nat :=
  fun x => .callOrig x (fun r =>
    match r with
    | .ok v => .ret (v + 1)
    | .raised e => .raise e)

/-- The guarded Scenario A call `f(5)`. -/
def scenarioA (testing : Bool) : PyResult (Option Nat) × OrchState Nat :=
  safe_patch_function testing ctxNone scenarioAOriginal scenarioAImpl
    "scenario" 5 (initState 0)

/-- Original function of the innermost patched function in the nested
scenario: the identity, counting invocations. -/
def nestedInnerOriginal : Nat → OrchState Nat → PyResult Nat × OrchState Nat :=
  fun x s => (.ok x, { s with user := s.user + 1 })

/-- Inner patch implementation of the nested scenario: returns without
calling the guarded closure. -/
def nestedInnerImpl : Nat → PatchImpl Nat Nat Nat :=
  fun _ => .ret 0

/-- The inner guarded call of the nested scenario: a patched function
invoked from inside the outer guarded call's original function. -/
def nestedInnerCall : Nat → OrchState Nat → PyResult (Option Nat) × OrchState Nat :=
  fun x s =>
    safe_patch_function false ctxNone nestedInnerOriginal nestedInnerImpl
      "inner" x s

/-- Outer patch implementation of the nested scenario: calls the
original (which reaches the nested patched function) and then fails in
instrumentation code. -/
def nestedOuterImpl : Nat → PatchImpl Nat (Option Nat) Nat :=
  fun x => .callOrig x (fun _ => .raise (Exc.exc 7))

/-- The outer guarded call of the nested scenario, in production mode,
starting with no ambient session. -/
def nestedScenario : PyResult (Option (Option Nat)) × OrchState Nat :=
  safe_patch_function false ctxNone nestedInnerCall nestedOuterImpl
    "outer" 5 (initState 0)

/-- A transparent patch implementation that forwards the caller's
argument to the original and returns its result. -/
def transparentImpl : Nat → PatchImpl Nat Nat Nat :=
  fun x => .callOrig x (fun r =>
    match r with
    | .ok v => .ret v
    | .raised e => .raise e)

/-- An original function that always raises `Exception` 3. -/
def failingOriginal : Nat → OrchState Unit → PyResult Nat × OrchState Unit :=
  fun _ s => (.raised (Exc.exc 3), s)

/-- A patch implementation that calls the original and catches whatever
exception the guarded closure re-raises, returning normally instead. -/
def catchingImpl : Nat → PatchImpl Nat Nat Nat :=
  fun x => .callOrig x (fun r =>
    match r with
    | .ok v => .ret v
    | .raised _ => .ret 0)

/-- A patch implementation that raises `Exception` 9 without ever
invoking the guarded closure. -/
def purePatchRaise : Nat → PatchImpl Nat Nat Nat :=
  fun _ => .raise (Exc.exc 9)

/-- A pure original function returning its argument plus one. -/
def pureOriginal : Nat → PyResult Nat :=
  fun x => .ok (x + 1)

/-- A patch implementation interrupted by `KeyboardInterrupt` before it
ever invokes the guarded closure. -/
def kbRaisingImpl : Nat → PatchImpl Nat Nat Nat :=
  fun _ => .raise (Exc.kb 2)

/-- A pure identity original over unit payload state. -/
def idOriginal : Nat → OrchState Unit → PyResult Nat × OrchState Unit :=
  fun x s => (.ok x, s)

/-- A wrapped patch implementation that is interrupted by
`KeyboardInterrupt` and manages no runs of its own. -/
def kbPatch : RunState → PyResult Nat × RunState :=
  fun s => (.raised (Exc.kb 0), s)

/-- Tracking-run state with no active run and no history. -/
def runS0 : RunState := ⟨Option.none, 0, []⟩

/-- A `_patch_implementation` body interrupted by `KeyboardInterrupt`,
leaving the instance state (a marker) untouched. -/
def kbImplBody : Nat → PyResult Nat × Nat :=
  fun n => (.raised (Exc.kb 0), n)

/-- An `_on_exception` hook that sets the marker state to 1 and then
itself raises a different exception. -/
def markingOnException : Exc → Nat → PyResult PUnit × Nat :=
  fun _ _ => (.raised (Exc.exc 5), 1)

/-- Once `original_has_been_called` is set it stays set for the rest of
the patch implementation's run. -/
theorem runPatch_called_mono {α γ β ω : Type}
    (original : α → OrchState ω → PyResult γ × OrchState ω) :
    ∀ (impl : PatchImpl α γ β) (s : OrchState ω) (cs : CallState γ),
      cs.originalHasBeenCalled = true →
      (runPatch original impl s cs).2.2.originalHasBeenCalled = true := by
  intro impl
  induction impl with
  | ret v => intro s cs h; simpa [runPatch] using h
  | raise e => intro s cs h; simpa [runPatch] using h
  | callOrig a k ih =>
    intro s cs h
    simp only [runPatch]
    cases ho : original a s with
    | mk r s' =>
      cases r with
      | ok v => exact ih (.ok v) s' _ rfl
      | raised e => exact ih (.raised e) s' _ rfl

/-- If the run of a patch implementation ends with
`original_has_been_called` still false, the guarded closure was never
invoked: the orchestrator state and the call-local record are exactly
as they started. -/
theorem runPatch_not_called {α γ β ω : Type}
    (original : α → OrchState ω → PyResult γ × OrchState ω) :
    ∀ (impl : PatchImpl α γ β) (s : OrchState ω) (cs : CallState γ),
      (runPatch original impl s cs).2.2.originalHasBeenCalled = false →
      (runPatch original impl s cs).2 = (s, cs) := by
  intro impl
  induction impl with
  | ret v => intro s cs _; simp [runPatch]
  | raise e => intro s cs _; simp [runPatch]
  | callOrig a k ih =>
    intro s cs h
    exfalso
    simp only [runPatch] at h
    cases ho : original a s with
    | mk r s' =>
      rw [ho] at h
      cases r with
      | ok v => rw [runPatch_called_mono original (k (.ok v)) s' _ rfl] at h; cases h
      | raised e => rw [runPatch_called_mono original (k (.raised e)) s' _ rfl] at h; cases h

/-- Under a transparent patch implementation, if the run records that
the original raised exactly the exception `e` (and nothing else), the
run's outcome is `e` itself, and `failed_during_original` has been set
precisely when `e` is an `Exception`. -/
theorem runPatch_propagates {α γ β ω : Type}
    (original : α → OrchState ω → PyResult γ × OrchState ω) :
    ∀ (impl : PatchImpl α γ β), Propagates impl →
      ∀ (s : OrchState ω) (cs : CallState γ), cs.origExcs = [] →
        ∀ e, (runPatch original impl s cs).2.2.origExcs = [e] →
          (runPatch original impl s cs).1 = .raised e ∧
          (runPatch original impl s cs).2.2.failedDuringOriginal =
            (cs.failedDuringOriginal || e.isException) := by
  intro impl
  induction impl with
  | ret v =>
    intro _ s cs hcs e he
    simp only [runPatch] at he
    rw [hcs] at he
    cases he
  | raise e' =>
    intro _ s cs hcs e he
    simp only [runPatch] at he
    rw [hcs] at he
    cases he
  | callOrig a k ih =>
    intro hp s cs hcs e he
    obtain ⟨hraise, hok⟩ := hp
    obtain ⟨called, ores, flag, oex⟩ := cs
    have hoex : oex = [] := hcs
    subst hoex
    simp only [runPatch] at he ⊢
    cases ho : original a s with
    | mk r s' =>
      rw [ho] at he
      cases r with
      | ok v =>
        exact ih (.ok v) (hok v) s' ⟨true, some v, flag, []⟩ rfl e he
      | raised e' =>
        have he2 : (runPatch original (k (.raised e')) s'
            ⟨true, ores, flag || e'.isException, [] ++ [e']⟩).2.2.origExcs = [e] := he
        rw [hraise e'] at he2
        simp only [runPatch, List.nil_append] at he2
        have hee : e' = e := by cases he2; rfl
        subst hee
        refine ⟨?_, ?_⟩
        · show (runPatch original (k (.raised e')) s'
              ⟨true, ores, flag || e'.isException, [] ++ [e']⟩).1 = PyResult.raised e'
          rw [hraise e']
          rfl
        · show (runPatch original (k (.raised e')) s'
              ⟨true, ores, flag || e'.isException, [] ++ [e']⟩).2.2.failedDuringOriginal =
            (flag || e'.isException)
          rw [hraise e']
          rfl

/-- `Evolves` is reflexive. -/
theorem evolves_refl {ω : Type} (s : OrchState ω) : Evolves s s :=
  ⟨rfl, [], rfl, by simp⟩

/-- `Evolves` is transitive. -/
theorem evolves_trans {ω : Type} {s t u : OrchState ω}
    (h1 : Evolves s t) (h2 : Evolves t u) : Evolves s u := by
  obtain ⟨hk1, xs1, hl1, ht1⟩ := h1
  obtain ⟨hk2, xs2, hl2, ht2⟩ := h2
  refine ⟨hk2.trans hk1, xs2 ++ xs1, ?_, ?_⟩
  · rw [hl2, hl1, List.append_assoc]
  · intro p hp
    rcases List.mem_append.mp hp with h | h
    · exact ht2 p h
    · exact ht1 p h

/-- A disciplined original keeps the run of any patch implementation
disciplined: the session keeps its identity and only terminal states
are logged. -/
theorem runPatch_evolves {α γ β ω : Type}
    {original : α → OrchState ω → PyResult γ × OrchState ω}
    (hd : Disciplined original) :
    ∀ (impl : PatchImpl α γ β) (s : OrchState ω) (cs : CallState γ),
      Evolves s (runPatch original impl s cs).2.1 := by
  intro impl
  induction impl with
  | ret v => intro s cs; exact evolves_refl s
  | raise e => intro s cs; exact evolves_refl s
  | callOrig a k ih =>
    intro s cs
    simp only [runPatch]
    cases ho : original a s with
    | mk r s' =>
      have h1 : Evolves s s' := by
        have := hd a s
        rw [ho] at this
        exact this
      cases r with
      | ok v => exact evolves_trans h1 (ih (.ok v) s' _)
      | raised e => exact evolves_trans h1 (ih (.raised e) s' _)

/-- A `session.state` assignment of a terminal state is disciplined. -/
theorem setSessionState_evolves {ω : Type} (st : SState)
    (hst : st ≠ SState.running) (s : OrchState ω) :
    Evolves s (setSessionState st s) := by
  cases h : s.session with
  | none => simp only [setSessionState, h]; exact evolves_refl s
  | some t =>
    refine ⟨?_, [(t.id, st)], ?_, ?_⟩
    · simp [setSessionState, h, sessKey]
    · simp [setSessionState, h]
    · simpa using hst

/-- `closeSession` never touches the assignment log. -/
theorem closeSession_stateLog {ω : Type} (owner : Bool) (s : OrchState ω) :
    (closeSession owner s).stateLog = s.stateLog := by
  cases owner <;> simp [closeSession]

/-- `closeSession` by a non-owner is the identity. -/
theorem closeSession_not_owner {ω : Type} (s : OrchState ω) :
    closeSession false s = s := by
  simp [closeSession]

/-- Entering a guarded call (session scope plus patch-start event)
never touches the assignment log. -/
theorem enterState_stateLog {ω : Type} (integration : String)
    (s : OrchState ω) : (enterState integration s).stateLog = s.stateLog := by
  cases h : s.session <;> simp [enterState, openSession, h]

/-- When a session is already ambient, entering a guarded call reuses
it. -/
theorem enterState_session_keep {ω : Type} (integration : String)
    {s : OrchState ω} {t : Session} (h : s.session = some t) :
    (enterState integration s).session = s.session := by
  simp [enterState, openSession, h]

/-- Anything disciplined relative to the entered state is disciplined
relative to the caller's state once the session scope exits: the
creating call clears the session it created, a reusing call leaves the
ambient session's identity in place, and in either case only terminal
entries were appended to the assignment log. -/
theorem enter_close_evolves {ω : Type} (integration : String)
    {s sy : OrchState ω} (hEy : Evolves (enterState integration s) sy) :
    Evolves s (closeSession s.session.isNone sy) := by
  obtain ⟨hk, ys, hl, ht⟩ := hEy
  cases hsess : s.session with
  | none =>
    refine ⟨?_, ys, ?_, ht⟩
    · simp [closeSession, hsess]
    · rw [closeSession_stateLog, hl, enterState_stateLog]
  | some t =>
    rw [Option.isNone_some, closeSession_not_owner]
    refine ⟨?_, ys, ?_, ht⟩
    · rw [hk, enterState_session_keep integration hsess, hsess]
    · rw [hl, enterState_stateLog]

/-- The state left behind by the return step is the (possibly
session-clearing) exit applied to either the state as it stood, or to
the state after the direct fallback call of the original. -/
theorem finishReturn_evolves {α γ ω : Type}
    {original : α → OrchState ω → PyResult γ × OrchState ω}
    (hd : Disciplined original) (arg : α) {s1 sx : OrchState ω}
    (cs : CallState γ) (owner : Bool) (hE : Evolves s1 sx) :
    ∃ sy, (finishReturn original arg sx cs owner).2 = closeSession owner sy ∧
      Evolves s1 sy := by
  by_cases h : cs.originalHasBeenCalled = true
  · exact ⟨sx, by simp [finishReturn, h], hE⟩
  · have hb : cs.originalHasBeenCalled = false := by simpa using h
    refine ⟨(original arg sx).2, ?_, evolves_trans hE (hd arg sx)⟩
    cases ho : original arg sx with
    | mk r s' => simp [finishReturn, hb, ho]

/-- Claim C4 (amended): the session object is created by the outermost
guarded call and cleared only by it — a guarded call preserves the
identity of any ambient session (nested calls reuse it and never clear
it), and every `session.state` assignment made during the call, by this
call or by nested guarded calls reached through the original, writes a
terminal state (succeeded or failed), never running. Unlike the
original claim, the terminal state is assigned once per guarded call
that completes its patch implementation, nested calls included, so the
shared session's state can be set more than once. -/
theorem claim_C4_session_discipline {α γ β ω : Type}
    (testing : Bool) (ctx : SkipCtx)
    {original : α → OrchState ω → PyResult γ × OrchState ω}
    (impl : α → PatchImpl α γ β) (integration : String)
    (hd : Disciplined original) :
    Disciplined (fun arg s =>
      safe_patch_function testing ctx original impl integration arg s) := by
  intro arg s
  simp only [safe_patch_function]
  by_cases hskip : shouldSkip ctx s = true
  · rw [if_pos hskip]
    have h := hd arg s
    cases ho : original arg s with
    | mk r s' =>
      rw [ho] at h
      exact h
  · rw [if_neg hskip]
    rcases hIR : implRun original impl integration arg s with ⟨r, s2, cs⟩
    have hE2 : Evolves (enterState integration s) s2 := by
      have h := runPatch_evolves hd (impl arg) (enterState integration s)
        CallState.init
      have hIR' : runPatch original (impl arg) (enterState integration s)
          CallState.init = (r, s2, cs) := hIR
      rw [hIR'] at h
      exact h
    cases r with
    | ok v =>
      have hE3 : Evolves (enterState integration s)
          (setSessionState SState.succeeded s2) :=
        evolves_trans hE2 (setSessionState_evolves _ (by decide) s2)
      obtain ⟨sy, hfr, hEy⟩ :=
        finishReturn_evolves hd arg cs s.session.isNone hE3
      rw [hfr]
      exact enter_close_evolves integration hEy
    | raised e =>
      show Evolves s
        ((if e.isException = true then
            if (cs.failedDuringOriginal || testing) = true then
              (PyResult.raised e,
                closeSession s.session.isNone (setSessionState SState.failed s2))
            else
              finishReturn original arg (setSessionState SState.failed s2) cs
                s.session.isNone
          else (PyResult.raised e, closeSession s.session.isNone s2)).2)
      by_cases hexc : e.isException = true
      · rw [if_pos hexc]
        have hE3 : Evolves (enterState integration s)
            (setSessionState SState.failed s2) :=
          evolves_trans hE2 (setSessionState_evolves _ (by decide) s2)
        by_cases hf : (cs.failedDuringOriginal || testing) = true
        · rw [if_pos hf]
          exact enter_close_evolves integration hE3
        · rw [if_neg hf]
          obtain ⟨sy, hfr, hEy⟩ :=
            finishReturn_evolves hd arg cs s.session.isNone hE3
          rw [hfr]
          exact enter_close_evolves integration hEy
      · rw [if_neg hexc]
        exact enter_close_evolves integration hE2

/-- A key that occurs in a dict is found by `containsKey`. -/
theorem containsKey_of_mem {k : Nat} {v : PyVal} :
    ∀ {es : List (Nat × PyVal)}, (k, v) ∈ es → containsKey k es = true := by
  intro es
  induction es with
  | nil => intro h; cases h
  | cons p rest ih =>
    cases p with
    | mk k' v' =>
      intro h
      rcases List.mem_cons.mp h with h | h
      · obtain ⟨hk, _⟩ := Prod.mk.injEq .. ▸ h
        simp [containsKey, hk]
      · simp [containsKey, ih h]

/-- In a dict with unique keys, `get` returns each entry's own value. -/
theorem lookup_of_nodup :
    ∀ (es : List (Nat × PyVal)), nodupKeys es = true →
      ∀ (k : Nat) (v : PyVal), (k, v) ∈ es → lookupEntry k es = v := by
  intro es
  induction es with
  | nil => intro _ k v h; cases h
  | cons p rest ih =>
    cases p with
    | mk k' v' =>
      intro hnd k v hm
      have hnd' : containsKey k' rest = false ∧ nodupKeys rest = true := by
        simp only [nodupKeys, Bool.and_eq_true, Bool.not_eq_true'] at hnd
        exact hnd
      rcases List.mem_cons.mp hm with h | h
      · obtain ⟨hk, hv⟩ := Prod.mk.injEq .. ▸ h
        subst hk
        subst hv
        simp [lookupEntry]
      · have hk : k' ≠ k := by
          intro hkk
          subst hkk
          rw [containsKey_of_mem h] at hnd'
          exact Bool.true_eq_false.mp hnd'.1
        simp only [lookupEntry, if_neg hk]
        exact ih hnd'.2 k v h

/-- A dict's key set is a subset of itself. -/
theorem keysSubset_refl (es : List (Nat × PyVal)) : keysSubset es es = true := by
  apply List.all_eq_true.mpr
  intro p hp
  cases p with
  | mk k v => exact containsKey_of_mem hp

mutual

/-- Validating any well-formed value against itself succeeds. -/
theorem validate_refl : ∀ (v : PyVal), wfVal v = true → _validate v v = true
  | .none, _ => rfl
  | .int n, _ => by simp [_validate, PyVal.isNone, sameType, pyEq]
  | .func m f, _ => by simp [_validate, PyVal.isNone, sameType, pyEq]
  | .obj c sf o, _ => by simp [_validate, PyVal.isNone, sameType, pyEq]
  | .list xs, h => by
    have hxs : wfList xs = true := by simpa [wfVal] using h
    simp [_validate, PyVal.isNone, sameType, seq_refl xs hxs]
  | .tuple xs, h => by
    have hxs : wfList xs = true := by simpa [wfVal] using h
    simp [_validate, PyVal.isNone, sameType, seq_refl xs hxs]
  | .dict es, h => by
    have h2 : nodupKeys es = true ∧ wfEntries es = true := by
      simpa [wfVal, Bool.and_eq_true] using h
    have hent : validateEntries es es = true :=
      entries_sub es es h2.2 (fun k v hm => lookup_of_nodup es h2.1 k v hm)
    simp [_validate, PyVal.isNone, sameType, keysSubset_refl, hent]

/-- Validating a well-formed sequence against itself elementwise
succeeds. -/
theorem seq_refl : ∀ (xs : List PyVal), wfList xs = true →
    validateSeq xs xs = true
  | [], _ => rfl
  | x :: xs, h => by
    have hx : wfVal x = true ∧ wfList xs = true := by
      simpa [wfList, Bool.and_eq_true] using h
    simp [validateSeq, validate_refl x hx.1, seq_refl xs hx.2]

/-- Validating each entry of a well-formed dict against a dict that
maps every one of those keys to the same value succeeds. -/
theorem entries_sub : ∀ (sub full : List (Nat × PyVal)),
    wfEntries sub = true →
    (∀ k v, (k, v) ∈ sub → lookupEntry k full = v) →
    validateEntries sub full = true
  | [], _, _, _ => rfl
  | (k, v) :: rest, full, h, hl => by
    have hx : wfVal v = true ∧ wfEntries rest = true := by
      simpa [wfEntries, Bool.and_eq_true] using h
    have hlk : lookupEntry k full = v := hl k v (List.mem_cons_self _ _)
    simp [validateEntries, hlk, validate_refl v hx.1,
      entries_sub rest full hx.2
        (fun k' v' hm => hl k' v' (List.mem_cons_of_mem _ hm))]

end

/-- Claim C1 (amended): for every patch implementation that propagates
the guarded closure's exceptions (installs no handler around its calls
to the original) and all call arguments, if the original function
raises exception `e` during the guarded call then the guarded call
raises exactly `e`, unchanged, in both production and test mode. The
restriction is forced: a patch implementation that catches the
closure's re-raised exception suppresses it (see the counterexample). -/
theorem claim_C1_original_failure_transparency {α γ β ω : Type}
    (testing : Bool) (ctx : SkipCtx)
    (original : α → OrchState ω → PyResult γ × OrchState ω)
    (impl : α → PatchImpl α γ β) (integration : String) (arg : α)
    (s : OrchState ω) (e : Exc)
    (hskip : shouldSkip ctx s = false)
    (hp : Propagates (impl arg))
    (he : (implRun original impl integration arg s).2.2.origExcs = [e]) :
    (safe_patch_function testing ctx original impl integration arg s).1 =
      PyResult.raised e := by
  have he' : (runPatch original (impl arg) (enterState integration s)
      CallState.init).2.2.origExcs = [e] := he
  have h := runPatch_propagates original (impl arg) hp
    (enterState integration s) CallState.init rfl e he'
  simp only [safe_patch_function]
  rw [if_neg (by simp [hskip])]
  rcases hIR : implRun original impl integration arg s with ⟨r, s2, cs⟩
  have hIR' : runPatch original (impl arg) (enterState integration s)
      CallState.init = (r, s2, cs) := hIR
  rw [hIR'] at h
  have hre : r = PyResult.raised e := h.1
  subst hre
  have h2 : cs.failedDuringOriginal = e.isException := by simpa using h.2
  show ((if e.isException = true then
      if (cs.failedDuringOriginal || testing) = true then
        (PyResult.raised e,
          closeSession s.session.isNone (setSessionState SState.failed s2))
      else
        finishReturn original arg (setSessionState SState.failed s2) cs
          s.session.isNone
    else (PyResult.raised e, closeSession s.session.isNone s2)).1 =
    PyResult.raised e)
  by_cases hexc : e.isException = true
  · rw [if_pos hexc, if_pos (by rw [h2, hexc]; simp)]
  · rw [if_neg hexc]

/-- Counterexample to C1 as stated: a patch implementation that wraps
its call of the guarded closure in a handler. The original raises
`Exception` 3 during the guarded call (the run's ghost log records it),
yet the guarded call raises nothing in either mode — it returns `None`
(`original_result` was never assigned), because the orchestrator sees
the patch implementation succeed and takes the success path. -/
theorem claim_C1_counterexample :
    (implRun failingOriginal catchingImpl "w" 0
      (initState ())).2.2.origExcs = [Exc.exc 3] ∧
    (safe_patch_function false ctxNone failingOriginal catchingImpl "w" 0
      (initState ())).1 = PyResult.ok Option.none ∧
    (safe_patch_function true ctxNone failingOriginal catchingImpl "w" 0
      (initState ())).1 = PyResult.ok Option.none ∧
    (safe_patch_function false ctxNone failingOriginal catchingImpl "w" 0
      (initState ())).1 ≠ PyResult.raised (Exc.exc 3) := by
  refine ⟨rfl, rfl, rfl, by decide⟩

/-- Witness for C1 (amended): a transparent patch implementation over
an original that raises `Exception` 3 — the guarded call raises exactly
that exception in production and in test mode. -/
theorem claim_C1_witness :
    shouldSkip ctxNone (initState ()) = false ∧
    (implRun failingOriginal transparentImpl "w" 0
      (initState ())).2.2.origExcs = [Exc.exc 3] ∧
    (safe_patch_function false ctxNone failingOriginal transparentImpl "w" 0
      (initState ())).1 = PyResult.raised (Exc.exc 3) ∧
    (safe_patch_function true ctxNone failingOriginal transparentImpl "w" 0
      (initState ())).1 = PyResult.raised (Exc.exc 3) :=
  ⟨rfl, rfl,
    claim_C1_original_failure_transparency false ctxNone failingOriginal
      transparentImpl "w" 0 (initState ()) (Exc.exc 3) rfl
      ⟨fun _ => rfl, fun _ => trivial⟩ rfl,
    claim_C1_original_failure_transparency true ctxNone failingOriginal
      transparentImpl "w" 0 (initState ()) (Exc.exc 3) rfl
      ⟨fun _ => rfl, fun _ => trivial⟩ rfl⟩

/-- Claim C2: a patch implementation that raises exception `e` without
ever invoking the guarded closure — in production mode the guarded call
does not raise `e` but returns the result of calling the original
function directly with the caller's arguments; in test mode it raises
`e`. -/
theorem claim_C2_instrumentation_failure_isolation {α γ β ω : Type}
    (ctx : SkipCtx) (f : α → PyResult γ) (impl : α → PatchImpl α γ β)
    (integration : String) (arg : α) (s : OrchState ω) (e : Exc)
    (hskip : shouldSkip ctx s = false)
    (hr : (implRun (liftO f) impl integration arg s).1 = PyResult.raised e)
    (hc : (implRun (liftO f) impl integration arg
      s).2.2.originalHasBeenCalled = false)
    (hexc : e.isException = true) :
    (safe_patch_function false ctx (liftO f) impl integration arg s).1 =
      liftRes (f arg) ∧
    (safe_patch_function true ctx (liftO f) impl integration arg s).1 =
      PyResult.raised e := by
  have hcs := runPatch_not_called (liftO f) (impl arg)
    (enterState integration s) CallState.init hc
  have hIRdef : runPatch (liftO f) (impl arg) (enterState integration s)
      CallState.init = implRun (liftO f) impl integration arg s := rfl
  refine ⟨?_, ?_⟩
  · simp only [safe_patch_function]
    rw [if_neg (by simp [hskip])]
    rcases hIR : implRun (liftO f) impl integration arg s with ⟨r, s2, cs⟩
    have hIR' : implRun (liftO f) impl integration arg s = (r, s2, cs) := hIR
    rw [hIR'] at hr
    rw [hIRdef, hIR'] at hcs
    have hre : r = PyResult.raised e := hr
    subst hre
    have hcs2 : cs = CallState.init := congrArg Prod.snd hcs
    subst hcs2
    show ((if e.isException = true then
        if ((CallState.init : CallState γ).failedDuringOriginal || false) =
            true then
          (PyResult.raised e,
            closeSession s.session.isNone (setSessionState SState.failed s2))
        else
          finishReturn (liftO f) arg (setSessionState SState.failed s2)
            CallState.init s.session.isNone
      else (PyResult.raised e, closeSession s.session.isNone s2)).1 =
      liftRes (f arg))
    rw [if_pos hexc, if_neg (by simp [CallState.init])]
    simp [finishReturn, CallState.init, liftO]
  · simp only [safe_patch_function]
    rw [if_neg (by simp [hskip])]
    rcases hIR : implRun (liftO f) impl integration arg s with ⟨r, s2, cs⟩
    have hIR' : implRun (liftO f) impl integration arg s = (r, s2, cs) := hIR
    rw [hIR'] at hr
    rw [hIRdef, hIR'] at hcs
    have hre : r = PyResult.raised e := hr
    subst hre
    have hcs2 : cs = CallState.init := congrArg Prod.snd hcs
    subst hcs2
    show ((if e.isException = true then
        if ((CallState.init : CallState γ).failedDuringOriginal || true) =
            true then
          (PyResult.raised e,
            closeSession s.session.isNone (setSessionState SState.failed s2))
        else
          finishReturn (liftO f) arg (setSessionState SState.failed s2)
            CallState.init s.session.isNone
      else (PyResult.raised e, closeSession s.session.isNone s2)).1 =
      PyResult.raised e)
    rw [if_pos hexc, if_pos (by simp)]

/-- Witness for C2: the patch implementation that raises `Exception` 9
without calling the closure — production mode returns the original's
direct result on the caller's argument, test mode raises the
exception. -/
theorem claim_C2_witness :
    (implRun (liftO pureOriginal) purePatchRaise "w" 4
      (initState (0 : Nat))).1 = PyResult.raised (Exc.exc 9) ∧
    (implRun (liftO pureOriginal) purePatchRaise "w" 4
      (initState (0 : Nat))).2.2.originalHasBeenCalled = false ∧
    (safe_patch_function false ctxNone (liftO pureOriginal) purePatchRaise
      "w" 4 (initState (0 : Nat))).1 = liftRes (pureOriginal 4) ∧
    (safe_patch_function true ctxNone (liftO pureOriginal) purePatchRaise
      "w" 4 (initState (0 : Nat))).1 = PyResult.raised (Exc.exc 9) := by
  have h := claim_C2_instrumentation_failure_isolation ctxNone pureOriginal
    purePatchRaise "w" 4 (initState (0 : Nat)) (Exc.exc 9) rfl rfl rfl rfl
  exact ⟨rfl, rfl, h.1, h.2⟩

/-- Counterexample to C3: in Scenario A the guarded call `f(5)` returns
10 — the captured result of `original(5)` — not 11: the orchestrator
discards the patch implementation's return value. The original is
invoked exactly once. -/
theorem claim_C3_counterexample :
    (scenarioA false).1 = PyResult.ok (some 10) ∧
    (scenarioA false).2.user = 1 ∧
    (scenarioA false).1 ≠ PyResult.ok (some 11) := by
  refine ⟨rfl, rfl, by decide⟩

/-- Claim C3 (amended): in Scenario A the guarded call `f(5)` returns
10, the original function's result (the patch implementation's value
`original(5) + 1` is discarded), and the original is invoked exactly
once — in production and test mode alike. -/
theorem claim_C3_scenarioA_returns_original_result (testing : Bool) :
    (scenarioA testing).1 = PyResult.ok (some 10) ∧
    (scenarioA testing).2.user = 1 := by
  cases testing <;> exact ⟨rfl, rfl⟩

/-- Counterexample to C4: in the nested scenario the shared session 0
has its terminal state assigned twice — first `succeeded` by the nested
guarded call when its patch implementation completes, then `failed` by
the outer call — so the state is not set exactly once, not set only by
the outermost call, and moves succeeded→failed. -/
theorem claim_C4_counterexample :
    nestedScenario.2.stateLog =
      [(0, SState.failed), (0, SState.succeeded)] ∧
    nestedScenario.2.stateLog.length ≠ 1 := by
  exact ⟨rfl, by decide⟩

/-- Witness for C4 (amended): a concrete guarded call from a
session-free state, over a disciplined original, evolves the state
within the discipline. -/
theorem claim_C4_witness :
    Evolves (initState (0 : Nat))
      (safe_patch_function false ctxNone nestedInnerOriginal nestedInnerImpl
        "inner" 5 (initState 0)).2 :=
  claim_C4_session_discipline false ctxNone nestedInnerImpl "inner"
    (fun _ s => ⟨rfl, [], rfl, by simp⟩) 5 (initState 0)

/-- Claim C5: for a patch implementation (which manages no tracking
runs of its own) wrapped by the managed-run wrapper — when no run is
active on entry, exactly one run is created and it is ended FINISHED on
normal return or FAILED on any exception or keyboard interrupt; when a
run is already active on entry, the wrapper creates and ends no run. -/
theorem claim_C5_managed_run {β : Type} (pf : RunState → PyResult β × RunState)
    (hpf : ∀ t, (pf t).2 = t) (s : RunState) :
    (s.activeRun = Option.none →
      (patch_with_managed_run pf s).1 = (pf (start_run s).2).1 ∧
      (patch_with_managed_run pf s).2.activeRun = Option.none ∧
      (patch_with_managed_run pf s).2.events =
        RunEvent.ended s.nextRunId (terminalStatus (pf (start_run s).2).1) ::
          RunEvent.created s.nextRunId :: s.events) ∧
    (s.activeRun.isSome = true → patch_with_managed_run pf s = pf s) := by
  obtain ⟨ar, nid, evs⟩ := s
  constructor
  · intro h
    have har : ar = Option.none := h
    subst har
    cases hpo : pf ⟨some nid, nid + 1, RunEvent.created nid :: evs⟩ with
    | mk r s2 =>
      have hs2 : s2 = ⟨some nid, nid + 1, RunEvent.created nid :: evs⟩ := by
        have hh := hpf ⟨some nid, nid + 1, RunEvent.created nid :: evs⟩
        rw [hpo] at hh
        exact hh
      subst hs2
      cases r with
      | ok v =>
        refine ⟨?_, ?_, ?_⟩ <;>
          simp [patch_with_managed_run, start_run, end_run, terminalStatus,
            hpo]
      | raised e =>
        refine ⟨?_, ?_, ?_⟩ <;>
          simp [patch_with_managed_run, start_run, end_run, terminalStatus,
            hpo]
  · intro h
    obtain ⟨rr, har⟩ := Option.isSome_iff_exists.mp h
    subst har
    cases hpo : pf ⟨some rr, nid, evs⟩ with
    | mk r s2 =>
      have hs2 : s2 = ⟨some rr, nid, evs⟩ := by
        have hh := hpf ⟨some rr, nid, evs⟩
        rw [hpo] at hh
        exact hh
      subst hs2
      cases r with
      | ok v => simp [patch_with_managed_run, hpo]
      | raised e => simp [patch_with_managed_run, hpo]

/-- Witness for C5: a run-free state and a wrapped implementation that
is interrupted — exactly one run is created, ended FAILED, and no run
is left active. -/
theorem claim_C5_witness :
    runS0.activeRun = Option.none ∧
    (patch_with_managed_run kbPatch runS0).1 = PyResult.raised (Exc.kb 0) ∧
    (patch_with_managed_run kbPatch runS0).2.activeRun = Option.none ∧
    (patch_with_managed_run kbPatch runS0).2.events =
      [RunEvent.ended 0 RunStatus.FAILED, RunEvent.created 0] := by
  have h := claim_C5_managed_run kbPatch (fun _ => rfl) runS0
  obtain ⟨ha, hb, hc⟩ := h.1 rfl
  exact ⟨rfl, ha, hb, hc⟩

/-- Claim C6: for every `PatchFunction`, if `_patch_implementation`
raises any exception or keyboard interrupt `e` then `_on_exception` is
invoked on `e` (its state effect is part of the outcome), and the call
re-raises exactly `e` whatever `_on_exception` returns or raises —
`_on_exception` can never suppress `e`. -/
theorem claim_C6_on_exception_reraise {σ β : Type}
    (impl : σ → PyResult β × σ) (onException : Exc → σ → PyResult PUnit × σ)
    (s s' : σ) (e : Exc) (h : impl s = (PyResult.raised e, s')) :
    PatchFunction_call impl onException s =
      (PyResult.raised e, (onException e s').2) := by
  cases hoe : onException e s' with
  | mk r2 s2 => simp [PatchFunction_call, h, hoe]

/-- Witness for C6: a body interrupted by `KeyboardInterrupt` and a
cleanup hook that records a marker and then itself raises — the hook
runs (marker set) and the original interrupt is re-raised, not the
hook's exception. -/
theorem claim_C6_witness :
    kbImplBody 0 = (PyResult.raised (Exc.kb 0), 0) ∧
    PatchFunction_call kbImplBody markingOnException 0 =
      (PyResult.raised (Exc.kb 0), 1) :=
  ⟨rfl, claim_C6_on_exception_reraise kbImplBody markingOnException 0 0
    (Exc.kb 0) rfl⟩

/-- Claim C7: whenever the short-circuit condition holds (failed active
session, disabled integration, exclusive integration with a
user-created active run, or global kill switch), the guarded call is
exactly a direct call of the original on the caller's arguments: no
session is opened, the patch implementation is never invoked, and the
result and state are those of the direct call. -/
theorem claim_C7_short_circuit {α γ β ω : Type} (testing : Bool)
    (ctx : SkipCtx) (original : α → OrchState ω → PyResult γ × OrchState ω)
    (impl : α → PatchImpl α γ β) (integration : String) (arg : α)
    (s : OrchState ω) (h : shouldSkip ctx s = true) :
    safe_patch_function testing ctx original impl integration arg s =
      (liftRes (original arg s).1, (original arg s).2) := by
  simp only [safe_patch_function, h]
  cases ho : original arg s with
  | mk r s' => rfl

/-- Witness for C7: a disabled integration — the guarded call returns
the original's direct result and leaves the state exactly as the
direct call does. -/
theorem claim_C7_witness :
    shouldSkip ⟨true, false, false, false⟩ (initState (0 : Nat)) = true ∧
    safe_patch_function false ⟨true, false, false, false⟩
        (liftO pureOriginal) purePatchRaise "w" 4 (initState 0) =
      (liftRes (pureOriginal 4), initState 0) :=
  ⟨rfl, claim_C7_short_circuit false ⟨true, false, false, false⟩
    (liftO pureOriginal) purePatchRaise "w" 4 (initState 0) rfl⟩

/-- Claim C8 (code bug): `revert_patches` called with the umbrella name
"mlflow" on a registry holding a patch recorded for the "sklearn"
integration reverts nothing and removes nothing — it only acts on the
exact key it is given, contradicting its own docstring (and the spec),
which promise that the umbrella name reverts the recorded patches of
all integrations. -/
theorem claim_C8_umbrella_revert_bug :
    revert_patches "mlflow" ⟨[("sklearn", [41])], []⟩ =
      ⟨[("sklearn", [41])], []⟩ ∧
    (revert_patches "mlflow" ⟨[("sklearn", [41])], []⟩).reverted = [] ∧
    revert_patches "sklearn" ⟨[("sklearn", [41])], []⟩ = ⟨[], [41]⟩ := by
  refine ⟨by decide, by decide, by decide⟩

/-- Claim C9: validating argument forwarding with the
instrumentation-side arguments identical to the user-side arguments
(same positional tuple, same keyword dict, no additions) always
succeeds, for every well-formed argument tuple and keyword dict. -/
theorem claim_C9_identity_forwarding (args : List PyVal)
    (kwargs : List (Nat × PyVal)) (hargs : wfList args = true)
    (hkeys : nodupKeys kwargs = true) (hvals : wfEntries kwargs = true) :
    _validate_args args kwargs args kwargs = true := by
  have h1 : _validate (.tuple args) (.tuple args) = true :=
    validate_refl (.tuple args) (by simpa [wfVal] using hargs)
  have h2 : _validate (.dict kwargs) (.dict kwargs) = true :=
    validate_refl (.dict kwargs) (by simp [wfVal, hkeys, hvals])
  simp [_validate_args, h1, h2]

/-- Witness for C9: a concrete nested argument tuple and keyword dict
validate successfully against themselves. -/
theorem claim_C9_witness :
    wfList [PyVal.int 1, PyVal.list [PyVal.func true 0], PyVal.none,
      PyVal.tuple [PyVal.obj 2 false 5]] = true ∧
    nodupKeys [(0, PyVal.dict [(1, PyVal.int 2)]), (3, PyVal.none)] = true ∧
    wfEntries [(0, PyVal.dict [(1, PyVal.int 2)]), (3, PyVal.none)] = true ∧
    _validate_args
      [PyVal.int 1, PyVal.list [PyVal.func true 0], PyVal.none,
        PyVal.tuple [PyVal.obj 2 false 5]]
      [(0, PyVal.dict [(1, PyVal.int 2)]), (3, PyVal.none)]
      [PyVal.int 1, PyVal.list [PyVal.func true 0], PyVal.none,
        PyVal.tuple [PyVal.obj 2 false 5]]
      [(0, PyVal.dict [(1, PyVal.int 2)]), (3, PyVal.none)] = true :=
  ⟨rfl, rfl, rfl,
    claim_C9_identity_forwarding
      [PyVal.int 1, PyVal.list [PyVal.func true 0], PyVal.none,
        PyVal.tuple [PyVal.obj 2 false 5]]
      [(0, PyVal.dict [(1, PyVal.int 2)]), (3, PyVal.none)] rfl rfl rfl⟩

/-- Claim C10: in production mode a `KeyboardInterrupt` escaping the
patch implementation run is not caught by the orchestrator's
`except Exception` handler — the guarded call propagates it unchanged,
performs no failed-state assignment (the log is exactly the run's log)
and only exits the session scope; the managed-run wrapper still ends
its managed run FAILED, and the `PatchFunction` cleanup hook still
runs, before the interrupt propagates. -/
theorem claim_C10_keyboard_interrupt {α γ β ω : Type} (ctx : SkipCtx)
    (original : α → OrchState ω → PyResult γ × OrchState ω)
    (impl : α → PatchImpl α γ β) (integration : String) (arg : α)
    (s : OrchState ω) (e : Exc)
    (hskip : shouldSkip ctx s = false)
    (hr : (implRun original impl integration arg s).1 = PyResult.raised e)
    (hkb : e.isException = false) :
    safe_patch_function false ctx original impl integration arg s =
      (PyResult.raised e,
        closeSession s.session.isNone
          (implRun original impl integration arg s).2.1) ∧
    (safe_patch_function false ctx original impl integration arg
      s).2.stateLog =
      (implRun original impl integration arg s).2.1.stateLog ∧
    patch_with_managed_run kbPatch runS0 =
      (PyResult.raised (Exc.kb 0),
        ⟨Option.none, 1,
          [RunEvent.ended 0 RunStatus.FAILED, RunEvent.created 0]⟩) ∧
    PatchFunction_call kbImplBody markingOnException 0 =
      (PyResult.raised (Exc.kb 0), 1) := by
  have h1 : safe_patch_function false ctx original impl integration arg s =
      (PyResult.raised e,
        closeSession s.session.isNone
          (implRun original impl integration arg s).2.1) := by
    simp only [safe_patch_function]
    rw [if_neg (by simp [hskip])]
    rcases hIR : implRun original impl integration arg s with ⟨r, s2, cs⟩
    have hIR' : implRun original impl integration arg s = (r, s2, cs) := hIR
    rw [hIR'] at hr
    have hre : r = PyResult.raised e := hr
    subst hre
    show ((if e.isException = true then
        if (cs.failedDuringOriginal || false) = true then
          (PyResult.raised e,
            closeSession s.session.isNone (setSessionState SState.failed s2))
        else
          finishReturn original arg (setSessionState SState.failed s2) cs
            s.session.isNone
      else (PyResult.raised e, closeSession s.session.isNone s2)) =
      (PyResult.raised e, closeSession s.session.isNone s2))
    rw [if_neg (by simp [hkb])]
  refine ⟨h1, ?_, rfl, rfl⟩
  rw [h1]
  exact closeSession_stateLog _ _

/-- Witness for C10: a patch implementation interrupted before calling
the closure — the interrupt propagates and no state assignment is
logged. -/
theorem claim_C10_witness :
    (implRun idOriginal kbRaisingImpl "w" 1 (initState ())).1 =
      PyResult.raised (Exc.kb 2) ∧
    (safe_patch_function false ctxNone idOriginal kbRaisingImpl "w" 1
      (initState ())).1 = PyResult.raised (Exc.kb 2) ∧
    (safe_patch_function false ctxNone idOriginal kbRaisingImpl "w" 1
      (initState ())).2.stateLog = [] := by
  have h := claim_C10_keyboard_interrupt ctxNone idOriginal kbRaisingImpl
    "w" 1 (initState ()) (Exc.kb 2) rfl rfl rfl
  refine ⟨rfl, ?_, ?_⟩
  · rw [h.1]
  · rw [h.2.1]
    rfl

end MlflowSafety
